import Mathlib

/-!
Verification of the apptainer OCI launcher's launch-specification assembly
(internal/pkg/runtime/launcher/oci), shallowly embedded in Lean.

Machine integers: the Go code works on uint32 / native strings.  In every
function embedded below, the Go arithmetic cannot overflow or underflow for
any in-range (< 2^32) input (additions `targetUID + 1` occur only under the
guard `targetUID < size`, subtractions `size - targetUID` likewise), so the
Nat translation agrees with the uint32 semantics on all representable inputs.
-/

namespace Apptainer

/-! ## Definitions: the shallow embedding of the launcher code -/

/-- OCI runtime-spec `LinuxIDMapping`: one contiguous ID-mapping entry. -/
structure LinuxIDMapping where
  containerID : Nat
  hostID : Nat
  size : Nat
deriving DecidableEq

/-- From process_linux.go, `reverseMapByRange`: builds the uid and gid mapping
tables that re-map container uid/gid to the target uid/gid, reversing the
host-user to container-root mapping of the initial fakeroot userns. -/
def reverseMapByRange (targetUID targetGID : Nat)
    (subuidRange subgidRange : LinuxIDMapping) :
    List LinuxIDMapping × List LinuxIDMapping :=
  let uidMap : List LinuxIDMapping :=
    if targetUID < subuidRange.size then
      [ { containerID := 0, hostID := 1, size := targetUID },
        { containerID := targetUID, hostID := 0, size := 1 },
        { containerID := targetUID + 1, hostID := targetUID + 1,
          size := subuidRange.size - targetUID } ]
    else
      [ { containerID := 0, hostID := 1, size := subuidRange.size },
        { containerID := targetUID, hostID := 0, size := 1 } ]
  let gidMap : List LinuxIDMapping :=
    if targetGID < subgidRange.size then
      [ { containerID := 0, hostID := 1, size := targetGID },
        { containerID := targetGID, hostID := 0, size := 1 },
        { containerID := targetGID + 1, hostID := targetGID + 1,
          size := subgidRange.size - targetGID } ]
    else
      [ { containerID := 0, hostID := 1, size := subgidRange.size },
        { containerID := targetGID, hostID := 0, size := 1 } ]
  (uidMap, gidMap)

/-- First-match-wins interpretation of a mapping table on the container-ID
axis (spec §3: "entries are consulted in order, first match wins"): the first
entry whose container-ID range contains `c` determines the host ID. -/
def lookupHostID : List LinuxIDMapping → Nat → Option Nat
  | [], _ => none
  | e :: rest, c =>
    if e.containerID ≤ c ∧ c < e.containerID + e.size then
      some (e.hostID + (c - e.containerID))
    else
      lookupHostID rest c

/-- From process_linux.go, `getReverseUserMaps`.  The two sub-ID range
lookups (`fakeroot.GetIDRange` on /etc/subuid and /etc/subgid, keyed by
`hostUID`) are reads of external state, supplied here as the `subuidRes` /
`subgidRes` inputs; Go's manual `if err != nil` propagation becomes the
explicit matches. -/
def getReverseUserMaps (hostUID targetUID targetGID : Nat)
    (subuidRes subgidRes : Except String LinuxIDMapping) :
    Except String (List LinuxIDMapping × List LinuxIDMapping) :=
  let _ := hostUID
  match subuidRes with
  | .error e => .error e
  | .ok subuidRange =>
    if subuidRange.size < 65536 then
      .error "subuid range size must be at least 65536"
    else
      match subgidRes with
      | .error e => .error e
      | .ok subgidRange =>
        if subgidRange.size < 65536 then
          .error "subuid range size must be at least 65536"
        else
          .ok (reverseMapByRange targetUID targetGID subuidRange subgidRange)

/-- OCI runtime-spec `LinuxCapabilities`: the five capability sets. -/
structure LinuxCapabilities where
  bounding : List String
  effective : List String
  inheritable : List String
  permitted : List String
  ambient : List String
deriving DecidableEq

/-- Modelled from the spec: `capabilities.RemoveDuplicated` (pkg/util/capabilities,
not part of the provided sources) collapses duplicate capability names —
"(base ∪ add) with duplicates collapsed".  Which occurrence survives is not
pinned by the spec; membership is what matters. -/
def removeDuplicated (caps : List String) : List String :=
  caps.dedup

/-- `lo.Without` (external samber/lo dependency): returns the collection with
all of the given values excluded, preserving order. -/
def loWithout (caps dropped : List String) : List String :=
  caps.filter (fun c => !(dropped.contains c))

/-- From process_linux.go, `getProcessCapabilities`, after the two
`capabilities.Split` calls: `base` is the result of `getBaseCapabilities`,
`addCaps`/`dropCaps` the validated add/drop name lists (unknown names were
already dropped with a warning by `Split`). -/
def getProcessCapabilities (base addCaps dropCaps : List String)
    (targetUID : Nat) : LinuxCapabilities :=
  let caps := base ++ addCaps
  let caps := removeDuplicated caps
  let caps := loWithout caps dropCaps
  if targetUID = 0 then
    { permitted := caps
      effective := caps
      bounding := caps
      inheritable := []
      ambient := [] }
  else
    let explicitCaps := loWithout addCaps dropCaps
    { permitted := explicitCaps
      effective := explicitCaps
      bounding := caps
      inheritable := explicitCaps
      ambient := explicitCaps }

/-- OCI image-spec `Image.Config` fields used by the launcher. -/
structure ImageConfig where
  user : String
  entrypoint : List String
  cmd : List String
  env : List String
deriving DecidableEq

/-- OCI image-spec `Image` (only the config part is consumed here). -/
structure ImageSpec where
  config : ImageConfig
deriving DecidableEq

/-- launcher.ExecParams fields consumed by `getProcess`/`getProcessArgs`. -/
structure ExecParams where
  image : String
  action : String
  process : String
  args : List String
deriving DecidableEq

/-- From process_linux.go, `getProcessArgs`: process args for the container,
with the process and image parameters overriding the image CMD/ENTRYPOINT. -/
def getProcessArgs (imageSpec : ImageSpec) (ep : ExecParams) : List String :=
  let processArgs :=
    if ep.process ≠ "" then [ep.process] else imageSpec.config.entrypoint
  if ep.args.length > 0 then
    processArgs ++ ep.args
  else
    if ep.process = "" then
      processArgs ++ imageSpec.config.cmd
    else
      processArgs

/-- The fixed apptainer library bind directory (process_linux.go line 33). -/
def apptainerLibs : String := "/.singularity.d/libs"

/-- Go map indexing `m[k]`. -/
def mapGet : List (String × String) → String → Option String
  | [], _ => none
  | p :: rest, k => if p.fst = k then some p.snd else mapGet rest k

/-- Go map assignment `m[k] = v`. -/
def mapSet : List (String × String) → String → String → List (String × String)
  | [], k, v => [(k, v)]
  | p :: rest, k, v => if p.fst = k then (k, v) :: rest else p :: mapSet rest k v

/-- Modelled from the spec: `mergeMap a b` (launcher oci package, not under
src/) merges map `b` into map `a`, `b`'s entries overwriting `a`'s — "each
later layer may overwrite keys set by a lower layer". -/
def mergeMap (a b : List (String × String)) : List (String × String) :=
  b.foldl (fun acc p => mapSet acc p.fst p.snd) a

/-- From process_linux.go `defaultEnv`; `env.ApptainerPrefix` is the fixed
"APPTAINER_" prefix of the util/env package. -/
def defaultEnv (image bundle : String) : List (String × String) :=
  [("APPTAINER_CONTAINER", bundle), ("APPTAINER_NAME", image)]

/-- Modelled from the spec: `generate.SetProcessEnv` (engine config generate
package, not under src/) sets KEY=VALUE in the ordered env list, overwriting
an existing KEY entry in place or appending a new one. -/
def setProcessEnv : List String → String → String → List String
  | [], k, v => [k ++ "=" ++ v]
  | e :: rest, k, v =>
    if (k ++ "=").toList.isPrefixOf e.toList then (k ++ "=" ++ v) :: rest
    else e :: setProcessEnv rest k v

/-- Go `strings.SplitN s "=" 2` as used on env entries: the part before the
first `=` and the remainder; `none` when `s` has no `=` (such entries are
skipped by the Go loops). -/
def splitEq : List Char → Option (List Char × List Char)
  | [] => none
  | c :: rest =>
    if c = '=' then some ([], rest)
    else
      match splitEq rest with
      | none => none
      | some (k, v) => some (c :: k, v)

def splitKV (s : String) : Option (String × String) :=
  match splitEq s.toList with
  | none => none
  | some (k, v) => some (String.mk k, String.mk v)

/-- The image-config scan of `getProcessEnv` (lines 264–275): the value of
the last `key=` entry of the list, or `""` when there is none. -/
def extractEnvKey (key : String) (env : List String) : String :=
  env.foldl (fun acc e =>
    match splitKV e with
    | none => acc
    | some (k, v) => if k = key then v else acc) ""

/-- Number of positions at which `sub` occurs in `l` (overlapping
occurrences counted separately). -/
def countOcc (sub : List Char) : List Char → Nat
  | [] => if sub.isPrefixOf [] then 1 else 0
  | c :: rest => (if sub.isPrefixOf (c :: rest) then 1 else 0) + countOcc sub rest

/-- Go `strings.Contains s sub`: `sub` occurs somewhere within `s`, expressed
through the occurrence counter (`goContains_iff_infix` below checks this
against the standard substring relation). -/
def goContains (s sub : String) : Bool :=
  decide (0 < countOcc sub.toList s.toList)

/-- Go `strings.TrimPrefix s ":"`: drops one leading ":" when present. -/
def trimLeadingColon (s : String) : String :=
  if [':'].isPrefixOf s.toList then String.mk (s.toList.drop 1) else s

/-- Mutable locals of `getProcessEnv` while scanning the runtime env. -/
structure EnvState where
  genv : List String
  path : String
  appendPath : String
  prependPath : String
  ldLibraryPath : String
deriving DecidableEq

/-- One iteration of the runtime-env loop of `getProcessEnv` (lines 278–291). -/
def stepEnv (st : EnvState) (kv : String × String) : EnvState :=
  if kv.fst = "PATH" then { st with path := kv.snd }
  else if kv.fst = "APPEND_PATH" then { st with appendPath := kv.snd }
  else if kv.fst = "PREPEND_PATH" then { st with prependPath := kv.snd }
  else if kv.fst = "LD_LIBRARY_PATH" then { st with ldLibraryPath := kv.snd }
  else { st with genv := setProcessEnv st.genv kv.fst kv.snd }

/-- The state after the image-config extraction (lines 254–275) and the
runtime-env loop (lines 278–291) of `getProcessEnv`. -/
def envFoldState (imageSpec : ImageSpec)
    (runtimeEnv : List (String × String)) : EnvState :=
  runtimeEnv.foldl stepEnv
    { genv := imageSpec.config.env
      path := extractEnvKey "PATH" imageSpec.config.env
      appendPath := ""
      prependPath := ""
      ldLibraryPath := extractEnvKey "LD_LIBRARY_PATH" imageSpec.config.env }

/-- The LD_LIBRARY_PATH fix-up of `getProcessEnv` (lines 304–307): ensure the
value contains the apptainer libs dir, appending it when absent. -/
def finalLdLibraryPath (imageSpec : ImageSpec)
    (runtimeEnv : List (String × String)) : String :=
  if goContains (envFoldState imageSpec runtimeEnv).ldLibraryPath apptainerLibs then
    (envFoldState imageSpec runtimeEnv).ldLibraryPath
  else
    trimLeadingColon
      ((envFoldState imageSpec runtimeEnv).ldLibraryPath ++ ":" ++ apptainerLibs)

/-- From process_linux.go `getProcessEnv`: combines the image config ENV with
the runtime env; APPEND_PATH / PREPEND_PATH are honored, LD_LIBRARY_PATH is
modified to always include the apptainer lib bind directory. -/
def getProcessEnv (imageSpec : ImageSpec)
    (runtimeEnv : List (String × String)) : List String :=
  let st := envFoldState imageSpec runtimeEnv
  let path := if st.appendPath ≠ "" then st.path ++ ":" ++ st.appendPath else st.path
  let path := if st.prependPath ≠ "" then st.prependPath ++ ":" ++ path else path
  let genv := if path ≠ "" then setProcessEnv st.genv "PATH" path else st.genv
  setProcessEnv genv "LD_LIBRARY_PATH" (finalLdLibraryPath imageSpec runtimeEnv)

/-- The runtime-env assembly of `getProcess` (process_linux.go lines 42–66):
defaults, host TERM, APPTAINERENV_ pass-through map, optional env-file map,
`--env` overrides, then the HOME override when the image declares no user.
Host reads (`os.LookupEnv "TERM"`, `apptainerEnvMap`, `envFileMap`) are
supplied as inputs. -/
def buildRtEnv (image bundle : String) (hostTerm : Option String)
    (apptainerEnv : List (String × String))
    (envFile : Option (List (String × String)))
    (cfgEnv : List (String × String))
    (imageUser homeDest : String) : List (String × String) :=
  let rtEnv := defaultEnv image bundle
  let rtEnv := match hostTerm with
    | some t => mapSet rtEnv "TERM" t
    | none => rtEnv
  let rtEnv := mergeMap rtEnv apptainerEnv
  let rtEnv := match envFile with
    | some e => mergeMap rtEnv e
    | none => rtEnv
  let rtEnv := mergeMap rtEnv cfgEnv
  if imageUser = "" then mapSet rtEnv "HOME" homeDest else rtEnv

/-- `firstOf x y`: `x` when present, else `y` — the "later layer wins"
combinator of the spec-side reference below. -/
def firstOf : Option String → Option String → Option String
  | some v, _ => some v
  | none, y => y

/-- Spec-side reference for C7, following the spec's words: precedence lowest
to highest is runtime defaults, host TERM, pass-through-prefixed host
variables, environment-file content, explicit override pairs. -/
def specLayeredLookup (image bundle : String) (hostTerm : Option String)
    (aEnv : List (String × String)) (eFile : Option (List (String × String)))
    (cEnv : List (String × String)) (k : String) : Option String :=
  firstOf (mapGet cEnv k)
    (firstOf (match eFile with | some e => mapGet e k | none => none)
      (firstOf (mapGet aEnv k)
        (firstOf (if k = "TERM" then hostTerm else none)
          (mapGet (defaultEnv image bundle) k))))

inductive LinuxNamespaceType
  | ipc
  | pid
  | mnt
  | network
  | user
  | uts
  | cgroup
deriving DecidableEq

/-- OCI runtime-spec `LinuxNamespace` (only the type field is used here). -/
structure LinuxNamespace where
  type : LinuxNamespaceType
deriving DecidableEq

/-- From spec_linux.go `defaultNamespaces`: matching the native runtime with
`--compat` / `--containall`. -/
def defaultNamespaces : List LinuxNamespace :=
  [{ type := .ipc }, { type := .pid }, { type := .mnt }]

/-- launcher.Namespaces request flags. -/
structure Namespaces where
  pid : Bool
  ipc : Bool
  user : Bool
  net : Bool
  uts : Bool
deriving DecidableEq

/-- From spec_linux.go `addNamespaces`: appends the requested namespaces, if
appropriate, to the spec's existing list (assumed to contain at least the
defaults).  The IPC and PID flags only produce informational notices.
`rootless.Getuid` reads host state and may fail; its result is the `uidRes`
input. -/
def addNamespaces (nsList : List LinuxNamespace) (ns : Namespaces)
    (uidRes : Except String Nat) : Except String (List LinuxNamespace) :=
  let ns1 := if ns.net then nsList ++ [{ type := .network }] else nsList
  let ns2E : Except String (List LinuxNamespace) :=
    if ns.user then
      match uidRes with
      | .error e => .error e
      | .ok uid =>
        if uid = 0 then .ok (ns1 ++ [{ type := .user }]) else .ok ns1
    else
      .ok ns1
  match ns2E with
  | .error e => .error e
  | .ok ns2 => .ok (if ns.uts then ns2 ++ [{ type := .uts }] else ns2)

/-- OCI runtime-spec `User`. -/
structure User where
  uid : Nat
  gid : Nat
deriving DecidableEq

/-- OCI runtime-spec `Process`, the fields assembled by `getProcess`. -/
structure Process where
  args : List String
  capabilities : LinuxCapabilities
  cwd : String
  env : List String
  noNewPrivileges : Bool
  user : User
  terminal : Bool
deriving DecidableEq

/-- launcher.Options fields consumed by `getProcess` and its helpers. -/
structure Options where
  env : List (String × String)
  envFile : String
  noPrivs : Bool
  keepPrivs : Bool
  addCaps : List String
  dropCaps : List String
  cwdPath : String
deriving DecidableEq

/-- The launcher state consumed by `getProcess`. -/
structure Launcher where
  cfg : Options
  homeDest : String
  nativeSIF : Bool
deriving DecidableEq

/-- From process_linux.go line 37: shell script emulating native mode shell
behavior. -/
def ociShellScript : String :=
  "export PS1='Apptainer> '; test -x /bin/bash && exec /bin/bash --norc || exec /bin/sh"

/-- From process_linux.go `getProcessCwd`: the explicit `--cwd` path wins,
else the resolved home destination (the Go error return is always nil). -/
def getProcessCwd (l : Launcher) : String :=
  if l.cfg.cwdPath.length > 0 then l.cfg.cwdPath else l.homeDest

/-- Modelled from the spec: the fixed default safe-capability set
(`oci.DefaultCaps`, engine config oci package, not under src/). -/
def defaultCaps : List String :=
  ["CAP_CHOWN", "CAP_DAC_OVERRIDE", "CAP_FSETID", "CAP_FOWNER", "CAP_MKNOD",
   "CAP_NET_RAW", "CAP_SETGID", "CAP_SETUID", "CAP_SETFCAP", "CAP_SETPCAP",
   "CAP_NET_BIND_SERVICE", "CAP_SYS_CHROOT", "CAP_KILL", "CAP_AUDIT_WRITE"]

/-- Modelled from the spec: the known capability-name enumeration
(pkg/util/capabilities, not under src/; a representative subset). -/
def knownCaps : List String :=
  defaultCaps ++
    ["CAP_SYS_ADMIN", "CAP_SYS_PTRACE", "CAP_NET_ADMIN", "CAP_SYS_NICE",
     "CAP_SYS_RESOURCE", "CAP_SYS_TIME", "CAP_SYS_BOOT", "CAP_SYS_MODULE",
     "CAP_SYS_RAWIO", "CAP_IPC_LOCK", "CAP_IPC_OWNER", "CAP_LEASE",
     "CAP_LINUX_IMMUTABLE", "CAP_MAC_ADMIN", "CAP_MAC_OVERRIDE", "CAP_SYSLOG",
     "CAP_WAKE_ALARM", "CAP_BLOCK_SUSPEND", "CAP_AUDIT_CONTROL",
     "CAP_AUDIT_READ", "CAP_DAC_READ_SEARCH", "CAP_NET_BROADCAST",
     "CAP_SYS_PACCT", "CAP_SYS_TTY_CONFIG"]

/-- Modelled from the spec: `capabilities.Split` (pkg/util/capabilities, not
under src/) partitions requested names into known capability names and
ignored unknown ones (warned about, never fatal). -/
def capSplit (caps : List String) : List String × List String :=
  (caps.filter (fun c => knownCaps.contains c),
   caps.filter (fun c => !(knownCaps.contains c)))

/-- From process_linux.go `getBaseCapabilities`; the host process's current
effective capability set (`capabilities.GetProcessEffective`, read only when
`--keep-privs` is set) is the `hostEffective` input. -/
def getBaseCapabilities (l : Launcher)
    (hostEffective : Except String (List String)) :
    Except String (List String) :=
  if l.cfg.noPrivs then .ok []
  else if l.cfg.keepPrivs then hostEffective
  else .ok defaultCaps

/-- The launcher-level part of `getProcessCapabilities` (lines 392–410):
base set, validated add/drop lists, then the core resolution. -/
def launcherProcessCapabilities (l : Launcher) (targetUID : Nat)
    (hostEffective : Except String (List String)) :
    Except String LinuxCapabilities :=
  match getBaseCapabilities l hostEffective with
  | .error e => .error e
  | .ok base =>
    .ok (getProcessCapabilities base (capSplit l.cfg.addCaps).fst
      (capSplit l.cfg.dropCaps).fst targetUID)

/-- From process_linux.go `getProcess`: assembles the OCI Process.  External
reads are supplied as inputs: host TERM, the APPTAINERENV_ pass-through map,
the parsed env-file map, the host effective capability set, the native-SIF
action-script args, and the `term.IsTerminal(stdin)` result. -/
def getProcess (l : Launcher) (imgSpec : ImageSpec) (bundle : String)
    (ep : ExecParams) (u : User) (hostTerm : Option String)
    (apptainerEnv : List (String × String))
    (envFileContent : Except String (List (String × String)))
    (hostEffective : Except String (List String))
    (actionScriptArgs : Except String (List String))
    (isTerminal : Bool) : Except String Process :=
  let eFileE : Except String (Option (List (String × String))) :=
    if l.cfg.envFile ≠ "" then
      match envFileContent with
      | .error e => .error e
      | .ok e => .ok (some e)
    else .ok none
  match eFileE with
  | .error e => .error e
  | .ok eFile =>
    let rtEnv := buildRtEnv ep.image bundle hostTerm apptainerEnv eFile
      l.cfg.env imgSpec.config.user l.homeDest
    let cwd := getProcessCwd l
    let noNewPrivs := if l.cfg.noPrivs then true else false
    match launcherProcessCapabilities l u.uid hostEffective with
    | .error e => .error e
    | .ok caps =>
      let argsE : Except String (List String) :=
        if l.nativeSIF then actionScriptArgs
        else if ep.action = "shell" then .ok ["/bin/sh", "-c", ociShellScript]
        else .ok (getProcessArgs imgSpec ep)
      match argsE with
      | .error e => .error e
      | .ok args =>
        .ok { args := args
              capabilities := caps
              cwd := cwd
              env := getProcessEnv imgSpec rtEnv
              noNewPrivileges := noNewPrivs
              user := u
              terminal := isTerminal }

/-! ## Theorems -/

/-- The uid component of the result depends only on `targetUID`/`subuidRange`. -/
theorem reverseMapByRange_fst (tu tg : Nat) (ru rg : LinuxIDMapping) :
    (reverseMapByRange tu tg ru rg).fst = (reverseMapByRange tu tu ru ru).fst := rfl

/-- The gid component is the uid component computed on the gid arguments. -/
theorem reverseMapByRange_snd (tu tg : Nat) (ru rg : LinuxIDMapping) :
    (reverseMapByRange tu tg ru rg).snd = (reverseMapByRange tg tg rg rg).fst := rfl

theorem lookupHostID_reverseMap_target (t : Nat) (r : LinuxIDMapping) :
    lookupHostID (reverseMapByRange t t r r).fst t = some 0 := by
  unfold reverseMapByRange
  by_cases h : t < r.size <;> simp only [h, if_pos, if_neg, not_false_iff] <;>
    simp [lookupHostID] <;> omega

theorem lookupHostID_reverseMap_below (t c : Nat) (r : LinuxIDMapping)
    (hct : c < t) (hcr : c < r.size) :
    lookupHostID (reverseMapByRange t t r r).fst c = some (c + 1) := by
  unfold reverseMapByRange
  by_cases h : t < r.size <;>
    simp only [h, if_pos, if_neg, not_false_iff] <;>
    simp [lookupHostID, hct, hcr, Nat.add_comm 1 c]

theorem lookupHostID_reverseMap_isSome (t c : Nat) (r : LinuxIDMapping)
    (h : t < r.size) :
    (lookupHostID (reverseMapByRange t t r r).fst c).isSome ↔ c ≤ r.size := by
  unfold reverseMapByRange
  rw [if_pos h]
  simp only [lookupHostID]
  split_ifs with h1 h2 h3 <;> simp <;> omega

theorem reverseMap_entry_sizes_pos (t : Nat) (r : LinuxIDMapping)
    (ht : 1 ≤ t) (hr : 65536 ≤ r.size) :
    ∀ e ∈ (reverseMapByRange t t r r).fst, 1 ≤ e.size := by
  unfold reverseMapByRange
  by_cases h : t < r.size <;> simp [h] <;> omega

/-- C1: for every target UID `t` and sub-UID range of size `r ≥ 65536`,
first-match-wins lookup on the uid table maps container-ID `t` to host-ID 0
and every container-ID `c < t` with `c < r` to host-ID `c + 1`; the same for
the gid table with the target GID and the sub-GID range. -/
theorem reverseMapByRange_reverses_target
    (tu tg : Nat) (ru rg : LinuxIDMapping)
    (hru : 65536 ≤ ru.size) (hrg : 65536 ≤ rg.size) :
    (lookupHostID (reverseMapByRange tu tg ru rg).fst tu = some 0 ∧
      ∀ c, c < tu → c < ru.size →
        lookupHostID (reverseMapByRange tu tg ru rg).fst c = some (c + 1)) ∧
    (lookupHostID (reverseMapByRange tu tg ru rg).snd tg = some 0 ∧
      ∀ c, c < tg → c < rg.size →
        lookupHostID (reverseMapByRange tu tg ru rg).snd c = some (c + 1)) := by
  refine ⟨⟨?_, fun c hct hcr => ?_⟩, ?_, fun c hct hcr => ?_⟩
  · exact lookupHostID_reverseMap_target tu ru
  · exact lookupHostID_reverseMap_below tu c ru hct hcr
  · exact lookupHostID_reverseMap_target tg rg
  · exact lookupHostID_reverseMap_below tg c rg hct hcr

theorem reverseMapByRange_reverses_target_witness :
    65536 ≤ (LinuxIDMapping.mk 0 0 65536).size ∧
    65536 ≤ (LinuxIDMapping.mk 0 0 70000).size ∧
    ((lookupHostID
        (reverseMapByRange 5 7 ⟨0, 0, 65536⟩ ⟨0, 0, 70000⟩).fst 5 = some 0 ∧
      ∀ c, c < 5 → c < (LinuxIDMapping.mk 0 0 65536).size →
        lookupHostID
          (reverseMapByRange 5 7 ⟨0, 0, 65536⟩ ⟨0, 0, 70000⟩).fst c =
          some (c + 1)) ∧
    (lookupHostID
        (reverseMapByRange 5 7 ⟨0, 0, 65536⟩ ⟨0, 0, 70000⟩).snd 7 = some 0 ∧
      ∀ c, c < 7 → c < (LinuxIDMapping.mk 0 0 70000).size →
        lookupHostID
          (reverseMapByRange 5 7 ⟨0, 0, 65536⟩ ⟨0, 0, 70000⟩).snd c =
          some (c + 1))) :=
  ⟨by decide, by decide,
    reverseMapByRange_reverses_target 5 7 ⟨0, 0, 65536⟩ ⟨0, 0, 70000⟩
      (by decide) (by decide)⟩

/-- C2 counterexample: at target 5 and range size 65536 the third uid entry
has size 65531 = r − t (the claim says r − t − 1 = 65530), and container-ID
65536 = r is still covered by the table (the claim says the table covers no
container-ID at or beyond r). -/
theorem reverseMapByRange_third_entry_counterexample :
    (reverseMapByRange 5 5 ⟨0, 0, 65536⟩ ⟨0, 0, 65536⟩).fst.map
        LinuxIDMapping.size = [5, 1, 65531] ∧
    ¬ (65531 = 65536 - 5 - 1) ∧
    lookupHostID (reverseMapByRange 5 5 ⟨0, 0, 65536⟩ ⟨0, 0, 65536⟩).fst 65536 =
      some 65536 := by
  refine ⟨by decide, by decide, ?_⟩
  decide

/-- C2 amended: for `t < r` the table has exactly three entries —
(a) container-IDs `[0, t)` from host-IDs `[1, t+1)` (size `t`);
(b) container-ID `t` from host-ID 0 (size 1);
(c) container-IDs `[t+1, r+1)` mapped identically, i.e. the third entry has
size `r − t` (not `r − t − 1`), and the table covers exactly the container-IDs
`[0, r]`, including `r` itself.  Likewise for the gid table. -/
theorem reverseMapByRange_three_entries
    (tu tg : Nat) (ru rg : LinuxIDMapping)
    (hu : tu < ru.size) (hg : tg < rg.size) :
    reverseMapByRange tu tg ru rg =
      ([⟨0, 1, tu⟩, ⟨tu, 0, 1⟩, ⟨tu + 1, tu + 1, ru.size - tu⟩],
       [⟨0, 1, tg⟩, ⟨tg, 0, 1⟩, ⟨tg + 1, tg + 1, rg.size - tg⟩]) ∧
    (∀ c, (lookupHostID (reverseMapByRange tu tg ru rg).fst c).isSome ↔
      c ≤ ru.size) ∧
    (∀ c, (lookupHostID (reverseMapByRange tu tg ru rg).snd c).isSome ↔
      c ≤ rg.size) := by
  refine ⟨?_, fun c => ?_, fun c => ?_⟩
  · unfold reverseMapByRange
    rw [if_pos hu, if_pos hg]
  · exact lookupHostID_reverseMap_isSome tu c ru hu
  · exact lookupHostID_reverseMap_isSome tg c rg hg

theorem reverseMapByRange_three_entries_witness :
    5 < (LinuxIDMapping.mk 0 0 65536).size ∧
    7 < (LinuxIDMapping.mk 0 0 70000).size ∧
    (reverseMapByRange 5 7 ⟨0, 0, 65536⟩ ⟨0, 0, 70000⟩ =
      ([⟨0, 1, 5⟩, ⟨5, 0, 1⟩, ⟨5 + 1, 5 + 1, (LinuxIDMapping.mk 0 0 65536).size - 5⟩],
       [⟨0, 1, 7⟩, ⟨7, 0, 1⟩, ⟨7 + 1, 7 + 1, (LinuxIDMapping.mk 0 0 70000).size - 7⟩]) ∧
    (∀ c, (lookupHostID
        (reverseMapByRange 5 7 ⟨0, 0, 65536⟩ ⟨0, 0, 70000⟩).fst c).isSome ↔
      c ≤ (LinuxIDMapping.mk 0 0 65536).size) ∧
    (∀ c, (lookupHostID
        (reverseMapByRange 5 7 ⟨0, 0, 65536⟩ ⟨0, 0, 70000⟩).snd c).isSome ↔
      c ≤ (LinuxIDMapping.mk 0 0 70000).size)) :=
  ⟨by decide, by decide,
    reverseMapByRange_three_entries 5 7 ⟨0, 0, 65536⟩ ⟨0, 0, 70000⟩
      (by decide) (by decide)⟩

/-- C3 counterexample: at target UID 0 (and any range size, here 65536) the
first uid-table entry has size 0, so not every entry has size ≥ 1. -/
theorem reverseMapByRange_zero_size_entry_counterexample :
    ¬ ∀ e ∈ (reverseMapByRange 0 0 ⟨0, 0, 65536⟩ ⟨0, 0, 65536⟩).fst,
        1 ≤ e.size := by
  decide

/-- C3 amended: for targets ≥ 1 (and range sizes ≥ 65536, both branches)
every entry of both tables has size ≥ 1; at target 0 the first entry of the
corresponding table has size 0.  The function is total (it is a Lean `def`),
producing a table for every input. -/
theorem reverseMapByRange_entry_sizes
    (tu tg : Nat) (ru rg : LinuxIDMapping)
    (htu : 1 ≤ tu) (htg : 1 ≤ tg)
    (hru : 65536 ≤ ru.size) (hrg : 65536 ≤ rg.size) :
    (∀ e ∈ (reverseMapByRange tu tg ru rg).fst, 1 ≤ e.size) ∧
    (∀ e ∈ (reverseMapByRange tu tg ru rg).snd, 1 ≤ e.size) :=
  ⟨reverseMap_entry_sizes_pos tu ru htu hru,
   reverseMap_entry_sizes_pos tg rg htg hrg⟩

theorem reverseMapByRange_entry_sizes_witness :
    1 ≤ 1 ∧ 1 ≤ 70000 ∧ 65536 ≤ (LinuxIDMapping.mk 0 0 65536).size ∧
    65536 ≤ (LinuxIDMapping.mk 0 0 65536).size ∧
    ((∀ e ∈ (reverseMapByRange 1 70000 ⟨0, 0, 65536⟩ ⟨0, 0, 65536⟩).fst,
        1 ≤ e.size) ∧
     (∀ e ∈ (reverseMapByRange 1 70000 ⟨0, 0, 65536⟩ ⟨0, 0, 65536⟩).snd,
        1 ≤ e.size)) :=
  ⟨by decide, by decide, by decide, by decide,
    reverseMapByRange_entry_sizes 1 70000 ⟨0, 0, 65536⟩ ⟨0, 0, 65536⟩
      (by decide) (by decide) (by decide) (by decide)⟩

/-- C5: with target UID 0, permitted = effective = bounding =
`(base ∪ add).dedup − drop` and inheritable/ambient are empty; with target
UID ≠ 0, permitted = effective = inheritable = ambient = `add − drop`,
bounding = `(base ∪ add).dedup − drop`, and `add − drop` is a subset of that
bounding set. -/
theorem getProcessCapabilities_resolution
    (base addCaps dropCaps : List String) (uid : Nat) (h : uid ≠ 0) :
    getProcessCapabilities base addCaps dropCaps 0 =
      { permitted := loWithout (removeDuplicated (base ++ addCaps)) dropCaps
        effective := loWithout (removeDuplicated (base ++ addCaps)) dropCaps
        bounding := loWithout (removeDuplicated (base ++ addCaps)) dropCaps
        inheritable := []
        ambient := [] } ∧
    getProcessCapabilities base addCaps dropCaps uid =
      { permitted := loWithout addCaps dropCaps
        effective := loWithout addCaps dropCaps
        bounding := loWithout (removeDuplicated (base ++ addCaps)) dropCaps
        inheritable := loWithout addCaps dropCaps
        ambient := loWithout addCaps dropCaps } ∧
    ∀ c ∈ loWithout addCaps dropCaps,
      c ∈ loWithout (removeDuplicated (base ++ addCaps)) dropCaps := by
  refine ⟨rfl, ?_, ?_⟩
  · simp [getProcessCapabilities, h]
  · intro c hc
    simp only [loWithout, List.mem_filter] at hc ⊢
    refine ⟨?_, hc.2⟩
    rw [removeDuplicated, List.mem_dedup, List.mem_append]
    exact Or.inr hc.1

theorem getProcessCapabilities_resolution_witness :
    (1000 ≠ 0) ∧
    (getProcessCapabilities ["CAP_CHOWN", "CAP_KILL"] ["CAP_NET_RAW", "CAP_KILL"]
        ["CAP_KILL"] 0 =
      { permitted := loWithout
          (removeDuplicated (["CAP_CHOWN", "CAP_KILL"] ++ ["CAP_NET_RAW", "CAP_KILL"]))
          ["CAP_KILL"]
        effective := loWithout
          (removeDuplicated (["CAP_CHOWN", "CAP_KILL"] ++ ["CAP_NET_RAW", "CAP_KILL"]))
          ["CAP_KILL"]
        bounding := loWithout
          (removeDuplicated (["CAP_CHOWN", "CAP_KILL"] ++ ["CAP_NET_RAW", "CAP_KILL"]))
          ["CAP_KILL"]
        inheritable := []
        ambient := [] } ∧
    getProcessCapabilities ["CAP_CHOWN", "CAP_KILL"] ["CAP_NET_RAW", "CAP_KILL"]
        ["CAP_KILL"] 1000 =
      { permitted := loWithout ["CAP_NET_RAW", "CAP_KILL"] ["CAP_KILL"]
        effective := loWithout ["CAP_NET_RAW", "CAP_KILL"] ["CAP_KILL"]
        bounding := loWithout
          (removeDuplicated (["CAP_CHOWN", "CAP_KILL"] ++ ["CAP_NET_RAW", "CAP_KILL"]))
          ["CAP_KILL"]
        inheritable := loWithout ["CAP_NET_RAW", "CAP_KILL"] ["CAP_KILL"]
        ambient := loWithout ["CAP_NET_RAW", "CAP_KILL"] ["CAP_KILL"] } ∧
    ∀ c ∈ loWithout ["CAP_NET_RAW", "CAP_KILL"] ["CAP_KILL"],
      c ∈ loWithout
        (removeDuplicated (["CAP_CHOWN", "CAP_KILL"] ++ ["CAP_NET_RAW", "CAP_KILL"]))
        ["CAP_KILL"]) :=
  ⟨by decide,
    getProcessCapabilities_resolution ["CAP_CHOWN", "CAP_KILL"]
      ["CAP_NET_RAW", "CAP_KILL"] ["CAP_KILL"] 1000 (by decide)⟩

/-- C6: in the default (non-native-SIF, non-shell) mode, an explicit process
name with no explicit args yields exactly that one-element list (the image's
default command is never appended), while no explicit process name and no
explicit args yield the image entrypoint followed by the image default
command. -/
theorem getProcessArgs_name_and_default
    (img : ImageSpec) (p act i : String) (h : p ≠ "") :
    getProcessArgs img { image := i, action := act, process := p, args := [] } =
      [p] ∧
    getProcessArgs img { image := i, action := act, process := "", args := [] } =
      img.config.entrypoint ++ img.config.cmd := by
  constructor
  · simp [getProcessArgs, h]
  · simp [getProcessArgs]

theorem getProcessArgs_name_and_default_witness :
    ("/bin/bar" ≠ "") ∧
    (getProcessArgs
        ⟨⟨"", ["/bin/foo"], ["--flag"], []⟩⟩
        { image := "img", action := "run", process := "/bin/bar", args := [] } =
      ["/bin/bar"] ∧
    getProcessArgs
        ⟨⟨"", ["/bin/foo"], ["--flag"], []⟩⟩
        { image := "img", action := "run", process := "", args := [] } =
      (ImageSpec.mk ⟨"", ["/bin/foo"], ["--flag"], []⟩).config.entrypoint ++
        (ImageSpec.mk ⟨"", ["/bin/foo"], ["--flag"], []⟩).config.cmd) :=
  ⟨by decide,
    getProcessArgs_name_and_default ⟨⟨"", ["/bin/foo"], ["--flag"], []⟩⟩
      "/bin/bar" "run" "img" (by decide)⟩

theorem mapGet_mapSet (m : List (String × String)) (k v q : String) :
    mapGet (mapSet m k v) q = if q = k then some v else mapGet m q := by
  induction m with
  | nil =>
    by_cases h : q = k
    · subst h; simp [mapGet, mapSet]
    · simp [mapGet, mapSet, h, Ne.symm h]
  | cons p rest ih =>
    by_cases h1 : p.fst = k
    · by_cases h2 : q = k
      · subst h2; simp [mapGet, mapSet, h1]
      · simp [mapGet, mapSet, h1, h2, Ne.symm h2]
    · by_cases h2 : q = k
      · subst h2
        simp [mapGet, mapSet, h1, ih]
      · simp [mapGet, mapSet, h1, h2, ih]

theorem mapGet_eq_none (m : List (String × String)) (k : String)
    (h : k ∉ m.map Prod.fst) : mapGet m k = none := by
  induction m with
  | nil => rfl
  | cons p rest ih =>
    simp only [List.map_cons, List.mem_cons] at h
    push_neg at h
    simp [mapGet, ih h.2, Ne.symm h.1]

theorem mapGet_mergeMap (a b : List (String × String)) (k : String)
    (hb : (b.map Prod.fst).Nodup) :
    mapGet (mergeMap a b) k = firstOf (mapGet b k) (mapGet a k) := by
  induction b generalizing a with
  | nil => rfl
  | cons p rest ih =>
    simp only [List.map_cons, List.nodup_cons] at hb
    have hstep : mergeMap a (p :: rest) = mergeMap (mapSet a p.fst p.snd) rest := rfl
    rw [hstep, ih _ hb.2, mapGet_mapSet]
    by_cases hk : k = p.fst
    · subst hk
      rw [mapGet_eq_none rest p.fst hb.1]
      simp [mapGet, firstOf]
    · simp [mapGet, firstOf, hk, Ne.symm hk]

/-- C7: the five environment layers are merged with fixed lowest-to-highest
precedence — runtime defaults, host TERM, pass-through host variables,
environment-file content, explicit override pairs — later layers overwriting
earlier ones (for every key other than the HOME slot forced afterwards); in
particular image env `PATH=/a`, pass-through `PATH=/b` and explicit override
`PATH=/c` resolve to `PATH=/c` in the final environment list. -/
theorem getProcess_env_precedence
    (image bundle homeDest imageUser : String) (hostTerm : Option String)
    (aEnv cEnv : List (String × String))
    (eFile : Option (List (String × String))) (k : String)
    (ha : (aEnv.map Prod.fst).Nodup)
    (he : ∀ e ∈ eFile, (List.map Prod.fst e).Nodup)
    (hc : (cEnv.map Prod.fst).Nodup)
    (hk : k ≠ "HOME") :
    mapGet (buildRtEnv image bundle hostTerm aEnv eFile cEnv imageUser homeDest) k =
      specLayeredLookup image bundle hostTerm aEnv eFile cEnv k ∧
    "PATH=/c" ∈ getProcessEnv ⟨⟨"", [], [], ["PATH=/a"]⟩⟩
      (buildRtEnv "img" "bnd" none [("PATH", "/b")] none [("PATH", "/c")] ""
        "/home/user") := by
  constructor
  · simp only [buildRtEnv, specLayeredLookup]
    have h5 : ∀ m : List (String × String),
        mapGet (if imageUser = "" then mapSet m "HOME" homeDest else m) k =
          mapGet m k := by
      intro m
      split_ifs with h
      · rw [mapGet_mapSet]; simp [hk]
      · rfl
    rw [h5, mapGet_mergeMap _ _ _ hc]
    congr 1
    cases eFile with
    | none =>
      simp only [firstOf]
      rw [mapGet_mergeMap _ _ _ ha]
      congr 1
      cases hostTerm with
      | none => simp [firstOf, ite_self]
      | some t =>
        rw [mapGet_mapSet]
        by_cases ht : k = "TERM" <;> simp [firstOf, ht]
    | some e =>
      rw [mapGet_mergeMap _ _ _ (he e (by simp))]
      congr 1
      rw [mapGet_mergeMap _ _ _ ha]
      congr 1
      cases hostTerm with
      | none => simp [firstOf, ite_self]
      | some t =>
        rw [mapGet_mapSet]
        by_cases ht : k = "TERM" <;> simp [firstOf, ht]
  · decide

theorem getProcess_env_precedence_witness :
    (([("CC", "gcc")] : List (String × String)).map Prod.fst).Nodup ∧
    (∀ e ∈ (none : Option (List (String × String))),
      (List.map Prod.fst e).Nodup) ∧
    (([("PATH", "/c"), ("TERM", "vt100")] : List (String × String)).map
      Prod.fst).Nodup ∧
    ("PATH" ≠ "HOME") ∧
    (mapGet (buildRtEnv "i" "b" (some "xterm") [("CC", "gcc")] none
        [("PATH", "/c"), ("TERM", "vt100")] "" "/root") "PATH" =
      specLayeredLookup "i" "b" (some "xterm") [("CC", "gcc")] none
        [("PATH", "/c"), ("TERM", "vt100")] "PATH" ∧
    "PATH=/c" ∈ getProcessEnv ⟨⟨"", [], [], ["PATH=/a"]⟩⟩
      (buildRtEnv "img" "bnd" none [("PATH", "/b")] none [("PATH", "/c")] ""
        "/home/user")) :=
  ⟨by decide, by simp, by decide, by decide,
    getProcess_env_precedence "i" "b" "/root" "" (some "xterm")
      [("CC", "gcc")] [("PATH", "/c"), ("TERM", "vt100")] none "PATH"
      (by decide) (by simp) (by decide) (by decide)⟩

theorem toList_append (a b : String) : (a ++ b).toList = a.toList ++ b.toList := by
  cases a; cases b; rfl

/-- Sanity of the `goContains` model: it is the standard substring relation. -/
theorem countOcc_pos_iff_infix (sub l : List Char) :
    0 < countOcc sub l ↔ sub <:+: l := by
  induction l with
  | nil =>
    cases sub with
    | nil => simp [countOcc, List.isPrefixOf]
    | cons c cs => simp [countOcc, List.isPrefixOf, List.infix_nil]
  | cons c rest ih =>
    rw [List.infix_cons_iff, ← List.isPrefixOf_iff_prefix, ← ih]
    simp only [countOcc]
    by_cases hp : sub.isPrefixOf (c :: rest) = true <;> simp [hp]

theorem goContains_iff_infix (s sub : String) :
    goContains s sub = true ↔ sub.toList <:+: s.toList := by
  simp [goContains, countOcc_pos_iff_infix]

/-- A colon-free pattern matching a prefix of `a ++ ':' :: z` already matches
a prefix of `a`: an occurrence cannot span the appended colon. -/
theorem isPrefixOf_across_colon (sub : List Char) (hc : ':' ∉ sub) :
    ∀ (a z : List Char), sub.isPrefixOf (a ++ ':' :: z) = true →
      sub.isPrefixOf a = true := by
  induction sub with
  | nil => intro a z _; cases a <;> rfl
  | cons x xs ih =>
    intro a z h
    cases a with
    | nil =>
      exfalso
      simp only [List.nil_append, List.isPrefixOf, Bool.and_eq_true,
        beq_iff_eq] at h
      exact hc (by rw [← h.1]; exact List.mem_cons_self x xs)
    | cons y ys =>
      simp only [List.cons_append, List.isPrefixOf, Bool.and_eq_true] at h ⊢
      exact ⟨h.1, ih (fun hx => hc (List.mem_cons_of_mem x hx)) ys z h.2⟩

/-- Appending `':' :: sub` to a string free of `sub` occurrences adds exactly
the occurrences inside `':' :: sub` itself. -/
theorem countOcc_append_colon (sub : List Char) (hc : ':' ∉ sub) :
    ∀ l, countOcc sub l = 0 →
      countOcc sub (l ++ ':' :: sub) = countOcc sub (':' :: sub) := by
  intro l
  induction l with
  | nil => intro _; rfl
  | cons c t ih =>
    intro h
    simp only [countOcc] at h
    have h1 : ¬ (sub.isPrefixOf (c :: t) = true) := by
      intro hp
      rw [if_pos hp] at h
      omega
    have h2 : countOcc sub t = 0 := by
      rw [if_neg h1] at h
      omega
    have h3 : ¬ (sub.isPrefixOf ((c :: t) ++ ':' :: sub) = true) := fun hp =>
      h1 (isPrefixOf_across_colon sub hc (c :: t) sub hp)
    rw [List.cons_append] at h3 ⊢
    have heq : countOcc sub (c :: (t ++ ':' :: sub)) =
        (if sub.isPrefixOf (c :: (t ++ ':' :: sub)) = true then 1 else 0) +
          countOcc sub (t ++ ':' :: sub) := rfl
    rw [heq, if_neg h3, ih h2, Nat.zero_add]

/-- The LD_LIBRARY_PATH fix-up, applied to a value free of the libs dir,
yields a value containing it exactly once. -/
theorem countOcc_ld_fixup (s : String)
    (h0 : countOcc apptainerLibs.toList s.toList = 0) :
    countOcc apptainerLibs.toList
      (trimLeadingColon (s ++ ":" ++ apptainerLibs)).toList = 1 := by
  have hc : ':' ∉ apptainerLibs.toList := by decide
  have harg : (s ++ ":" ++ apptainerLibs).toList =
      s.toList ++ ':' :: apptainerLibs.toList := by
    rw [toList_append, toList_append]
    simp
  unfold trimLeadingColon
  rw [harg]
  cases hL : s.toList with
  | nil =>
    split_ifs with hcond
    · decide
    · exact absurd (by decide) hcond
  | cons c t =>
    have h2 : countOcc apptainerLibs.toList t = 0 := by
      have h0a := h0
      rw [hL] at h0a
      simp only [countOcc] at h0a
      split_ifs at h0a <;> omega
    have h0c : countOcc apptainerLibs.toList (c :: t) = 0 := by
      rw [← hL]; exact h0
    by_cases hcol : c = ':'
    · subst hcol
      split_ifs with hcond
      · show countOcc apptainerLibs.toList
          (List.drop 1 ((':' :: t) ++ ':' :: apptainerLibs.toList)) = 1
        simp only [List.cons_append, List.drop_succ_cons, List.drop_zero]
        rw [countOcc_append_colon apptainerLibs.toList hc t h2]
        decide
      · exact absurd (by simp [List.isPrefixOf, List.cons_append]) hcond
    · split_ifs with hcond
      · exfalso
        simp only [List.cons_append, List.isPrefixOf, Bool.and_eq_true,
          beq_iff_eq] at hcond
        exact hcol hcond.1.symm
      · rw [harg, hL]
        rw [countOcc_append_colon apptainerLibs.toList hc (c :: t) h0c]
        decide

theorem setProcessEnv_mem (l : List String) (k v : String) :
    (k ++ "=" ++ v) ∈ setProcessEnv l k v := by
  induction l with
  | nil => exact List.mem_singleton.mpr rfl
  | cons e rest ih =>
    simp only [setProcessEnv]
    split
    · exact List.mem_cons_self _ _
    · exact List.mem_cons_of_mem _ ih

/-- C8 counterexample: with a runtime LD_LIBRARY_PATH already containing the
libs dir twice, `getProcessEnv` passes the value through unchanged, and the
resulting entry contains the path twice — not exactly once. -/
theorem getProcessEnv_ld_twice_counterexample :
    countOcc apptainerLibs.toList
        (finalLdLibraryPath ⟨⟨"", [], [], []⟩⟩
          [("LD_LIBRARY_PATH",
            "/.singularity.d/libs:/.singularity.d/libs")]).toList = 2 ∧
    "LD_LIBRARY_PATH=/.singularity.d/libs:/.singularity.d/libs" ∈
      getProcessEnv ⟨⟨"", [], [], []⟩⟩
        [("LD_LIBRARY_PATH", "/.singularity.d/libs:/.singularity.d/libs")] ∧
    ¬ (2 = 1) := ⟨by decide, by decide, by decide⟩

/-- C8 amended: whenever the LD_LIBRARY_PATH value assembled from the image
and runtime layers contains the libs dir at most once (absent or present
once), the LD_LIBRARY_PATH entry emitted by `getProcessEnv` contains it
exactly once; a value already containing it (also more than once) is passed
through unchanged. -/
theorem getProcessEnv_ld_exactly_once (imageSpec : ImageSpec)
    (runtimeEnv : List (String × String))
    (h : countOcc apptainerLibs.toList
      (envFoldState imageSpec runtimeEnv).ldLibraryPath.toList ≤ 1) :
    ("LD_LIBRARY_PATH=" ++ finalLdLibraryPath imageSpec runtimeEnv) ∈
        getProcessEnv imageSpec runtimeEnv ∧
    countOcc apptainerLibs.toList
      (finalLdLibraryPath imageSpec runtimeEnv).toList = 1 := by
  constructor
  · exact setProcessEnv_mem _ _ _
  · unfold finalLdLibraryPath
    by_cases hcont :
        goContains (envFoldState imageSpec runtimeEnv).ldLibraryPath
          apptainerLibs = true
    · rw [if_pos hcont]
      have hpos : 0 < countOcc apptainerLibs.toList
          (envFoldState imageSpec runtimeEnv).ldLibraryPath.toList := by
        simpa [goContains] using hcont
      omega
    · rw [if_neg hcont]
      have h0 : countOcc apptainerLibs.toList
          (envFoldState imageSpec runtimeEnv).ldLibraryPath.toList = 0 := by
        by_contra hne
        exact hcont (by simp only [goContains, decide_eq_true_eq]; omega)
      exact countOcc_ld_fixup _ h0

theorem getProcessEnv_ld_exactly_once_witness :
    countOcc apptainerLibs.toList
      (envFoldState ⟨⟨"", [], [], []⟩⟩
        [("LD_LIBRARY_PATH", "/opt/lib")]).ldLibraryPath.toList ≤ 1 ∧
    (("LD_LIBRARY_PATH=" ++
        finalLdLibraryPath ⟨⟨"", [], [], []⟩⟩
          [("LD_LIBRARY_PATH", "/opt/lib")]) ∈
        getProcessEnv ⟨⟨"", [], [], []⟩⟩ [("LD_LIBRARY_PATH", "/opt/lib")] ∧
    countOcc apptainerLibs.toList
      (finalLdLibraryPath ⟨⟨"", [], [], []⟩⟩
        [("LD_LIBRARY_PATH", "/opt/lib")]).toList = 1) :=
  ⟨by decide,
    getProcessEnv_ld_exactly_once ⟨⟨"", [], [], []⟩⟩
      [("LD_LIBRARY_PATH", "/opt/lib")] (by decide)⟩

/-- C9: requesting only the PID and IPC flags leaves the namespace list
exactly equal to the default set (no duplicate kinds, no extra entries), for
any host-identity lookup result; and for any flag combination the appended
namespaces follow the order defaults, Network, User, UTS, with the User
namespace appended only when the resolved host identity is UID 0. -/
theorem addNamespaces_defaults_and_order (uidRes : Except String Nat)
    (uid : Nat) (ns : Namespaces) :
    addNamespaces defaultNamespaces
      { pid := true, ipc := true, user := false, net := false, uts := false }
      uidRes = .ok defaultNamespaces ∧
    addNamespaces defaultNamespaces ns (.ok uid) =
      .ok (defaultNamespaces ++
        (if ns.net then [{ type := .network }] else []) ++
        (if ns.user ∧ uid = 0 then [{ type := .user }] else []) ++
        (if ns.uts then [{ type := .uts }] else [])) := by
  constructor
  · rfl
  · unfold addNamespaces
    cases hnet : ns.net <;> cases huser : ns.user <;> cases huts : ns.uts <;>
      by_cases hu : uid = 0 <;> simp [hnet, huser, huts, hu]

/-- C10: whenever `getProcess` succeeds, the assembled descriptor has
NoNewPrivileges equal to the no-privs option — true iff `--no-privs` was
set, unaffected by every other launch option or input. -/
theorem getProcess_noNewPrivileges (l : Launcher) (imgSpec : ImageSpec)
    (bundle : String) (ep : ExecParams) (u : User) (hostTerm : Option String)
    (aEnv : List (String × String))
    (eFC : Except String (List (String × String)))
    (hE : Except String (List String)) (asa : Except String (List String))
    (isT : Bool) (p : Process)
    (h : getProcess l imgSpec bundle ep u hostTerm aEnv eFC hE asa isT =
      .ok p) :
    p.noNewPrivileges = l.cfg.noPrivs := by
  unfold getProcess at h
  repeat' first
    | split at h
    | (replace h := h.symm; split at h)
  all_goals
    first
      | exact Except.noConfusion h
      | exact Except.noConfusion h.symm
      | (cases h; simp_all)
      | ((rcases asa with ae | aargs) <;> simp_all <;> (subst h; rfl))

theorem getProcess_noNewPrivileges_witness :
    getProcess
        { cfg := { env := [], envFile := "", noPrivs := true,
                   keepPrivs := false, addCaps := [], dropCaps := [],
                   cwdPath := "" },
          homeDest := "/home/u", nativeSIF := false }
        ⟨⟨"", [], [], []⟩⟩ "bundle"
        { image := "img", action := "run", process := "/bin/true", args := [] }
        ⟨1000, 1000⟩ none [] (.ok []) (.ok []) (.ok []) false =
      .ok { args := ["/bin/true"]
            capabilities := { bounding := [], effective := [],
                              inheritable := [], permitted := [],
                              ambient := [] }
            cwd := "/home/u"
            env := ["APPTAINER_CONTAINER=bundle", "APPTAINER_NAME=img",
                    "HOME=/home/u",
                    "LD_LIBRARY_PATH=/.singularity.d/libs"]
            noNewPrivileges := true
            user := ⟨1000, 1000⟩
            terminal := false } ∧
    Process.noNewPrivileges
        { args := ["/bin/true"]
          capabilities := { bounding := [], effective := [],
                            inheritable := [], permitted := [],
                            ambient := [] }
          cwd := "/home/u"
          env := ["APPTAINER_CONTAINER=bundle", "APPTAINER_NAME=img",
                  "HOME=/home/u",
                  "LD_LIBRARY_PATH=/.singularity.d/libs"]
          noNewPrivileges := true
          user := ⟨1000, 1000⟩
          terminal := false } =
      Options.noPrivs { env := [], envFile := "", noPrivs := true,
                        keepPrivs := false, addCaps := [], dropCaps := [],
                        cwdPath := "" } :=
  ⟨by rfl,
    getProcess_noNewPrivileges
      { cfg := { env := [], envFile := "", noPrivs := true,
                 keepPrivs := false, addCaps := [], dropCaps := [],
                 cwdPath := "" },
        homeDest := "/home/u", nativeSIF := false }
      ⟨⟨"", [], [], []⟩⟩ "bundle"
      { image := "img", action := "run", process := "/bin/true", args := [] }
      ⟨1000, 1000⟩ none [] (.ok []) (.ok []) (.ok []) false
      { args := ["/bin/true"]
        capabilities := { bounding := [], effective := [],
                          inheritable := [], permitted := [],
                          ambient := [] }
        cwd := "/home/u"
        env := ["APPTAINER_CONTAINER=bundle", "APPTAINER_NAME=img",
                "HOME=/home/u",
                "LD_LIBRARY_PATH=/.singularity.d/libs"]
        noNewPrivileges := true
        user := ⟨1000, 1000⟩
        terminal := false }
      (by rfl)⟩

/-- C4: `getReverseUserMaps` produces mapping tables exactly when both
looked-up sub-ID ranges have size at least 65536; a sub-UID or sub-GID range
below 65536 yields an error and no tables. -/
theorem getReverseUserMaps_ok_iff (h tu tg : Nat) (ru rg : LinuxIDMapping) :
    (∃ maps, getReverseUserMaps h tu tg (.ok ru) (.ok rg) = .ok maps) ↔
      (65536 ≤ ru.size ∧ 65536 ≤ rg.size) := by
  unfold getReverseUserMaps
  by_cases h1 : ru.size < 65536 <;> by_cases h2 : rg.size < 65536 <;>
    simp [h1, h2] <;> omega

end Apptainer

